import Mathlib

/-!
Verification of the crypto-ticker data-acquisition core (ticker.py).

Shallow embedding conventions:
* Python float values that only flow through the pipeline (prices, changes)
  are modelled as rationals; no floating-point arithmetic is performed by the
  code under verification (values are parsed, compared and stored unchanged).
* The mutable Ticker object is modelled by explicit state passing: every
  method takes the current state and returns the new one.
* datetime values are modelled as abstract instants (naturals).  For naive
  datetimes, datetime.fromisoformat (datetime.isoformat v) = v exactly, so a
  serialized timestamp is represented by the instant it denotes; a cache field
  holding an unparseable string is represented separately (see CacheRecord).
* Network effects are passed in as an environment value describing the outcome
  of each HTTP request of the cycle; fallible Python code is modelled with an
  explicit result type that also records the object state at raise time,
  because Python assignments performed before an exception persist.
-/

namespace CryptoTicker

abbrev DateTime := ℕ

/-- Python exceptions that the embedded code can raise past its own handlers. -/
inductive PyExc where
  | keyError (k : String)
  | valueError (msg : String)
  | stopIteration
  | attributeError (msg : String)
deriving DecidableEq

/-- Result of running a Python method: either a normal return or an exception
propagating; in both cases the (mutated) object state is carried, because
assignments made before a raise persist on the object. -/
inductive PyResult (α : Type) where
  | ok (a : α)
  | exn (e : PyExc) (a : α)
deriving DecidableEq

/-- class API (ticker.py lines 23-38): endpoint descriptor. -/
structure API where
  name : String
  base_url : String
  price_endpoint : String
  change_endpoint : String
  kline_endpoint : String
deriving DecidableEq

def API.get_price_url (a : API) (coin_id : String) : String :=
  a.base_url ++ a.price_endpoint ++ "?symbol=" ++ coin_id

def API.get_change_url (a : API) (coin_id : String) : String :=
  a.base_url ++ a.change_endpoint ++ "?symbol=" ++ coin_id

def API.get_kline_url (a : API) (coin_id : String) (interval : String) (lim : ℕ) : String :=
  a.base_url ++ a.kline_endpoint ++ "?symbol=" ++ coin_id ++ "&interval=" ++ interval
    ++ "&limit=" ++ toString lim

/-- The single configured descriptor (ticker.py lines 41-44). -/
def binanceAPI : API :=
  { name := "Binance"
    base_url := "https://api.binance.com/api/v3/"
    price_endpoint := "ticker/price"
    change_endpoint := "ticker/24hr"
    kline_endpoint := "klines" }

def APIs : List API := [binanceAPI]

/-- One parsed OHLC bar (the list built in fetch_candlestick_data, lines 96-103). -/
structure Candle where
  timestamp : DateTime
  open_price : ℚ
  high_price : ℚ
  low_price : ℚ
  close_price : ℚ
deriving DecidableEq

/-- The observable content of the candlestick chart image produced by
plot_candlestick_chart: the bars drawn plus the annotated extrema
(lines 128-133); rendering to pixels is outside the verified core. -/
structure CandleChart where
  data : List Candle
  highest_high : ℚ
  lowest_low : ℚ
  idx_highest : ℕ
  idx_lowest : ℕ
deriving DecidableEq

/-- The mutable state of one Ticker object (ticker.py lines 47-59). -/
structure Ticker where
  symbol : String
  binance_symbol : String
  price : ℚ
  price_change : ℚ
  change_24h : ℚ
  last_update : Option DateTime
  logo_path : String
  current_api : API
  candlestick_image : Option CandleChart
  appearance_mode : String
  font_scale : ℚ
deriving DecidableEq

/-- Ticker.__init__ (lines 48-59). -/
def Ticker.init (symbol binance_symbol : String) : Ticker :=
  { symbol := symbol
    binance_symbol := binance_symbol
    price := 0
    price_change := 0
    change_24h := 0
    last_update := none
    logo_path := "./assets/" ++ symbol.toLower ++ ".png"
    current_api := binanceAPI
    candlestick_image := none
    appearance_mode := "Dark"
    font_scale := 1 }

/-- On-disk cache record: the JSON object written by save_to_cache
(lines 161-167).  A field is none when the key is absent from the file.
The last_update field is a string in the file; it is modelled by its parse
result: some (some t) = key present and datetime.fromisoformat succeeds,
some none = key present but the string does not parse (ValueError). -/
structure CacheRecord where
  price : Option ℚ
  price_change : Option ℚ
  change_24h : Option ℚ
  last_update : Option (Option DateTime)
  api : Option String
deriving DecidableEq

/-- State of the per-symbol cache file named <symbol>_cache.json. -/
inductive CacheFile where
  | absent
  | invalid
  | record (r : CacheRecord)
deriving DecidableEq

/-- The cache directory, keyed by ticker symbol. -/
abbrev Cache := String → CacheFile

/-- Outcome of the price request and its parsing (update, lines 65-69):
GET, raise_for_status, .json(), then float(price_data['price']).
netErr and httpErr are requests.RequestException; jsonErr and fieldErr are
plain Exception; all four reach a handler that calls load_from_cache. -/
inductive PriceStep where
  | netErr (msg : String)
  | httpErr (code : ℕ)
  | jsonErr
  | fieldErr
  | ok (p : ℚ)
deriving DecidableEq

/-- Outcome of the 24h-change request and its parsing (update, lines 71-76).
The two float(...) assignments happen in order, so percentErr leaves both
fields untouched while changeErr has already assigned change_24h. -/
inductive ChangeStep where
  | netErr (msg : String)
  | httpErr (code : ℕ)
  | jsonErr
  | percentErr
  | changeErr (percent : ℚ)
  | ok (percent change : ℚ)
deriving DecidableEq

/-- Network environment of one quote-fetch cycle. -/
structure FetchEnv where
  priceStep : PriceStep
  changeStep : ChangeStep
deriving DecidableEq

/-- The quote-fetch cycle failed at some stage (anything except both
requests succeeding and parsing). -/
def FetchEnv.failed (env : FetchEnv) : Prop :=
  match env.priceStep, env.changeStep with
  | PriceStep.ok _, ChangeStep.ok _ _ => False
  | _, _ => True

/-- Both requests of the cycle succeeded and parsed. -/
def FetchEnv.succeeds (env : FetchEnv) : Prop :=
  (∃ p, env.priceStep = PriceStep.ok p) ∧ ∃ pct chg, env.changeStep = ChangeStep.ok pct chg

/-- The 24h-change step failed at the request level (network error,
non-success status, or undecodable body) as opposed to a field-level
parse failure. -/
def ChangeStep.requestFailed : ChangeStep → Prop
  | ChangeStep.netErr _ => True
  | ChangeStep.httpErr _ => True
  | ChangeStep.jsonErr => True
  | _ => False

/-- Outcome of the kline request (fetch_candlestick_data, lines 91-103):
err covers network errors, non-success status and any parse failure of the
response or of a bar, all caught by the same handler (line 106). -/
inductive KlineEnv where
  | err (msg : String)
  | ok (bars : List Candle)
deriving DecidableEq

/-- The candle step of the cycle produces no new chart: the request or the
bar parsing failed, or the aggregation fails (max() on an empty window
raises ValueError, line 130, swallowed at line 157). -/
def candleFailed : KlineEnv → Prop
  | KlineEnv.err _ => True
  | KlineEnv.ok bars => bars = []

/-- Python max over a non-empty list: fold keeping the current value unless
a strictly greater one appears (so the first of equal maxima is kept). -/
def pyMaxA (cur : ℚ) : List ℚ → ℚ
  | [] => cur
  | x :: xs => pyMaxA (if cur < x then x else cur) xs

/-- Python max(list): ValueError (none) on an empty list. -/
def pyMax : List ℚ → Option ℚ
  | [] => none
  | x :: xs => some (pyMaxA x xs)

def pyMinA (cur : ℚ) : List ℚ → ℚ
  | [] => cur
  | x :: xs => pyMinA (if x < cur then x else cur) xs

/-- Python min(list): ValueError (none) on an empty list. -/
def pyMin : List ℚ → Option ℚ
  | [] => none
  | x :: xs => some (pyMinA x xs)

/-- Python list.index(v): index of the first occurrence of v. -/
def pyIndex (v : ℚ) : List ℚ → ℕ
  | [] => 0
  | x :: xs => if x = v then 0 else pyIndex v xs + 1

/-- Ticker.plot_candlestick_chart (lines 109-158), restricted to its
observable effect: compute the window extrema and their first-occurrence
indices (lines 128-133) and store the annotated chart in
candlestick_image (line 155).  Any internal error (in particular max/min
of an empty window) is swallowed by the handler at line 157, leaving the
previous image in place. -/
def Ticker.plot_candlestick_chart (st : Ticker) (data : List Candle) : Ticker :=
  let high_values := data.map (fun c => c.high_price)
  let low_values := data.map (fun c => c.low_price)
  match pyMax high_values, pyMin low_values with
  | some highest_high, some lowest_low =>
    let chart : CandleChart :=
      { data := data
        highest_high := highest_high
        lowest_low := lowest_low
        idx_highest := pyIndex highest_high high_values
        idx_lowest := pyIndex lowest_low low_values }
    { st with candlestick_image := some chart }
  | _, _ => st

/-- Ticker.fetch_candlestick_data (lines 89-107): on any request or parse
error the handler at line 106 logs and swallows, leaving the state
untouched; otherwise the parsed bars are plotted. -/
def Ticker.fetch_candlestick_data (st : Ticker) (kl : KlineEnv) : Ticker :=
  match kl with
  | KlineEnv.err _ => st
  | KlineEnv.ok bars => Ticker.plot_candlestick_chart st bars

/-- Ticker.save_to_cache (lines 160-169): writes the JSON record for this
symbol, overwriting the file.  self.last_update.isoformat() raises
AttributeError when last_update is still None. -/
def Ticker.save_to_cache (st : Ticker) (cache : Cache) : PyResult Cache :=
  match st.last_update with
  | none => PyResult.exn (PyExc.attributeError "isoformat") cache
  | some t =>
    PyResult.ok (fun s =>
      if s = st.symbol then
        CacheFile.record
          { price := some st.price
            price_change := some st.price_change
            change_24h := some st.change_24h
            last_update := some (some t)
            api := some st.current_api.name }
      else cache s)

/-- Ticker.load_from_cache (lines 171-184).  FileNotFoundError and
json.JSONDecodeError are caught (no-op apart from logging); a missing key
(KeyError), an unparseable timestamp (ValueError from fromisoformat) or an
unmatched descriptor name (StopIteration from next) escape the handlers,
with the assignments already executed left in place. -/
def Ticker.load_from_cache (st : Ticker) (cache : Cache) : PyResult Ticker :=
  match cache st.symbol with
  | CacheFile.absent => PyResult.ok st
  | CacheFile.invalid => PyResult.ok st
  | CacheFile.record r =>
    match r.price with
    | none => PyResult.exn (PyExc.keyError "price") st
    | some p =>
      let stA : Ticker := { st with price := p, price_change := r.price_change.getD 0 }
      match r.change_24h with
      | none => PyResult.exn (PyExc.keyError "change_24h") stA
      | some c =>
        let stB : Ticker := { stA with change_24h := c }
        match r.last_update with
        | none => PyResult.exn (PyExc.keyError "last_update") stB
        | some ts =>
          match ts with
          | none => PyResult.exn (PyExc.valueError "fromisoformat") stB
          | some t =>
            let stC : Ticker := { stB with last_update := some t }
            match r.api with
            | none => PyResult.exn (PyExc.keyError "api") stC
            | some nm =>
              match APIs.find? (fun a => a.name == nm) with
              | none => PyResult.exn PyExc.stopIteration stC
              | some a => PyResult.ok { stC with current_api := a }

/-- Ticker.update (lines 61-87).  The try block runs the price step, the
change step, stamps last_update with the current time, saves the cache and
then attempts the candle fetch; requests.RequestException and every other
Exception raised in the try block reach a handler that calls
load_from_cache on the state mutated so far.  Exceptions raised inside
load_from_cache itself occur in the handler and therefore propagate. -/
def Ticker.update (st : Ticker) (env : FetchEnv) (now : DateTime) (cache : Cache)
    (kl : KlineEnv) : PyResult Ticker × Cache :=
  match env.priceStep with
  | PriceStep.netErr _ => (Ticker.load_from_cache st cache, cache)
  | PriceStep.httpErr _ => (Ticker.load_from_cache st cache, cache)
  | PriceStep.jsonErr => (Ticker.load_from_cache st cache, cache)
  | PriceStep.fieldErr => (Ticker.load_from_cache st cache, cache)
  | PriceStep.ok p =>
    let st1 : Ticker := { st with price := p }
    match env.changeStep with
    | ChangeStep.netErr _ => (Ticker.load_from_cache st1 cache, cache)
    | ChangeStep.httpErr _ => (Ticker.load_from_cache st1 cache, cache)
    | ChangeStep.jsonErr => (Ticker.load_from_cache st1 cache, cache)
    | ChangeStep.percentErr => (Ticker.load_from_cache st1 cache, cache)
    | ChangeStep.changeErr pct =>
      (Ticker.load_from_cache { st1 with change_24h := pct } cache, cache)
    | ChangeStep.ok pct chg =>
      let st3 : Ticker :=
        { st1 with change_24h := pct, price_change := chg, last_update := some now }
      match Ticker.save_to_cache st3 cache with
      | PyResult.ok cache2 =>
        (PyResult.ok (Ticker.fetch_candlestick_data st3 kl), cache2)
      | PyResult.exn _ _ =>
        (Ticker.load_from_cache st3 cache, cache)

/-- Per-symbol input of one polling pass. -/
structure CycleInput where
  env : FetchEnv
  kl : KlineEnv
deriving DecidableEq

/-- Observable outcome of one GUI.update_prices pass (lines 330-338). -/
structure PassResult where
  tickers : List Ticker
  cache : Cache
  raised : Option PyExc
  scheduledNext : Bool

/-- GUI.update_prices (lines 330-338): iterate the tracked tickers in order,
calling ticker.update() on each; an exception escaping any update aborts
the loop (the remaining tickers are not updated) and self.after(10000, ...)
at line 338 is never reached, so no further cycle is scheduled. -/
def update_prices : List (Ticker × CycleInput) → DateTime → Cache → PassResult
  | [], _, cache =>
    { tickers := [], cache := cache, raised := none, scheduledNext := true }
  | (t, ci) :: rest, now, cache =>
    match Ticker.update t ci.env now cache ci.kl with
    | (PyResult.ok t2, cache2) =>
      let r := update_prices rest now cache2
      { tickers := t2 :: r.tickers
        cache := r.cache
        raised := r.raised
        scheduledNext := r.scheduledNext }
    | (PyResult.exn e tMid, cache2) =>
      { tickers := tMid :: rest.map Prod.fst
        cache := cache2
        raised := some e
        scheduledNext := false }

/-- A cache file from which load_from_cache returns without raising:
absent, undecodable, or a record with all required keys present, a
parseable timestamp, and a descriptor name matching a configured API. -/
def CacheFile.safe : CacheFile → Prop
  | CacheFile.absent => True
  | CacheFile.invalid => True
  | CacheFile.record r =>
    (∃ p, r.price = some p) ∧ (∃ c, r.change_24h = some c) ∧
    (∃ t, r.last_update = some (some t)) ∧
    (∃ nm a, r.api = some nm ∧ APIs.find? (fun x => x.name == nm) = some a)

/-! ### Rate limiter

ticker.py configures CALLS = 1200 and RATE_LIMIT = 60 (lines 19-20) and
wraps update and update_prices in sleep_and_retry/limits decorators.  The
limiter implementation itself is third-party library code that is not part
of this repository's sources. -/

def CALLS : ℕ := 1200

def RATE_LIMIT : ℚ := 60

/-- Modelled from the spec: the rate limiter implementation (the decorators
applied at lines 61-62 and 330-331) is not in the repository sources; spec
section 4.1 specifies acquire() over a ledger of completed call times:
the calls still inside the rolling window of the last RATE_LIMIT seconds. -/
def activeCalls (led : List ℚ) (t : ℚ) : List ℚ :=
  led.filter (fun c => decide (t < c + RATE_LIMIT))

/-- Modelled from the spec: acquire() at request time t over the ledger of
earlier calls (most recent first).  If fewer than CALLS calls are inside
the rolling window the call proceeds at once; otherwise the caller sleeps
until the oldest call in the window expires (backpressure, not rejection),
and the call completes at that instant.  Returns the completion time and
the extended ledger. -/
def acquire (led : List ℚ) (t : ℚ) : ℚ × List ℚ :=
  if (activeCalls led t).length < CALLS then
    (t, t :: led)
  else
    match (activeCalls led t).getLast? with
    | some old => (old + RATE_LIMIT, (old + RATE_LIMIT) :: led)
    | none => (t, t :: led)

/-- Modelled from the spec: a sequence of calls issued through the shared
limiter.  Calls are sequential, so a call cannot be requested before the
previous one completed: the effective request time is the maximum of the
nominal request time and the previous completion time (the ledger head). -/
def runLimiter : List ℚ → List ℚ → List ℚ
  | [], led => led
  | r :: rs, led => runLimiter rs (acquire led (max r (led.headD r))).2

/-- Number of completed calls inside the sliding window (s, s + RATE_LIMIT]. -/
def windowCount (led : List ℚ) (s : ℚ) : ℕ :=
  (led.filter (fun c => decide (s < c) && decide (c ≤ s + RATE_LIMIT))).length

/-- Limiter ledger invariant: completion times are listed most recent first
and no sliding window contains more than CALLS completed calls. -/
def ledgerOK (led : List ℚ) : Prop :=
  led.Pairwise (fun a b => b ≤ a) ∧ ∀ s : ℚ, windowCount led s ≤ CALLS

/-! ### Theorems -/

/-- Loading a fully readable record whose descriptor name resolves assigns
exactly the recorded quote (price_change via .get with default 0). -/
theorem load_record_readable (st : Ticker) (cache : Cache) (p pc c : ℚ)
    (t : DateTime) (nm : String) (a : API)
    (hc : cache st.symbol = CacheFile.record
      { price := some p, price_change := some pc, change_24h := some c,
        last_update := some (some t), api := some nm })
    (hfind : APIs.find? (fun x => x.name == nm) = some a) :
    Ticker.load_from_cache st cache = PyResult.ok
      { st with price := p, price_change := pc, change_24h := c,
                last_update := some t, current_api := a } := by
  simp [Ticker.load_from_cache, hc, hfind]

/-- On any failing fetch stage, update is the fallback action on the
partially updated state, with the cache unwritten. -/
theorem update_failed_falls_back (st : Ticker) (env : FetchEnv)
    (now : DateTime) (cache : Cache) (kl : KlineEnv) (hfail : env.failed) :
    ∃ st1 : Ticker,
      Ticker.update st env now cache kl = (Ticker.load_from_cache st1 cache, cache) ∧
      st1.symbol = st.symbol ∧ st1.last_update = st.last_update ∧
      st1.current_api = st.current_api := by
  obtain ⟨ps, cs⟩ := env
  cases ps <;> cases cs <;> simp only [FetchEnv.failed] at hfail <;>
    exact ⟨_, rfl, rfl, rfl, rfl⟩

/-- C1: whenever the quote-fetch cycle fails, at any stage and for any
reason, update performs the cache fallback: its result is exactly the
result of load_from_cache on the partially updated state (whose identity
fields are untouched) and the cache is not written; in particular the
fetch error itself never appears in the outcome handed to the caller. -/
theorem c1_fetch_failure_falls_back_to_cache (st : Ticker) (env : FetchEnv)
    (now : DateTime) (cache : Cache) (kl : KlineEnv) (hfail : env.failed) :
    ∃ st1 : Ticker,
      Ticker.update st env now cache kl = (Ticker.load_from_cache st1 cache, cache) ∧
      st1.symbol = st.symbol ∧ st1.last_update = st.last_update ∧
      st1.current_api = st.current_api :=
  update_failed_falls_back st env now cache kl hfail

theorem c1_witness :
    ∃ st1 : Ticker,
      Ticker.update (Ticker.init "BTC" "BTCUSDT")
          { priceStep := PriceStep.netErr "timeout", changeStep := ChangeStep.jsonErr }
          5 (fun _ => CacheFile.absent) (KlineEnv.err "x")
        = (Ticker.load_from_cache st1 (fun _ => CacheFile.absent),
           fun _ => CacheFile.absent) ∧
      st1.symbol = (Ticker.init "BTC" "BTCUSDT").symbol ∧
      st1.last_update = (Ticker.init "BTC" "BTCUSDT").last_update ∧
      st1.current_api = (Ticker.init "BTC" "BTCUSDT").current_api :=
  c1_fetch_failure_falls_back_to_cache (Ticker.init "BTC" "BTCUSDT")
    { priceStep := PriceStep.netErr "timeout", changeStep := ChangeStep.jsonErr }
    5 (fun _ => CacheFile.absent) (KlineEnv.err "x") trivial

/-- C2: if the cycle fails and the symbol's cache file holds a readable
record, the post-cycle quote equals the cached record exactly, the
timestamp is the recorded one (not now), and the descriptor is resolved by
name to the recorded one. -/
theorem c2_failed_cycle_adopts_cached_quote (st : Ticker) (env : FetchEnv)
    (now : DateTime) (cache : Cache) (kl : KlineEnv) (p pc c : ℚ)
    (t : DateTime) (nm : String) (a : API) (hfail : env.failed)
    (hc : cache st.symbol = CacheFile.record
      { price := some p, price_change := some pc, change_24h := some c,
        last_update := some (some t), api := some nm })
    (hfind : APIs.find? (fun x => x.name == nm) = some a) :
    ∃ st2 : Ticker, (Ticker.update st env now cache kl).1 = PyResult.ok st2 ∧
      st2.price = p ∧ st2.price_change = pc ∧ st2.change_24h = c ∧
      st2.last_update = some t ∧ st2.current_api = a := by
  obtain ⟨ps, cs⟩ := env
  cases ps <;> cases cs <;> simp only [FetchEnv.failed] at hfail <;>
    exact ⟨_, load_record_readable _ cache p pc c t nm a hc hfind,
           rfl, rfl, rfl, rfl, rfl⟩

theorem c2_witness :
    ∃ st2 : Ticker,
      (Ticker.update (Ticker.init "BTC" "BTCUSDT")
          { priceStep := PriceStep.httpErr 500, changeStep := ChangeStep.jsonErr }
          777
          (fun s => if s = "BTC" then
            CacheFile.record
              { price := some (6500012 / 100), price_change := some 950,
                change_24h := some (3 / 2), last_update := some (some 1704067200),
                api := some "Binance" }
           else CacheFile.absent)
          (KlineEnv.err "x")).1 = PyResult.ok st2 ∧
      st2.price = 6500012 / 100 ∧ st2.price_change = 950 ∧
      st2.change_24h = 3 / 2 ∧ st2.last_update = some 1704067200 ∧
      st2.current_api = binanceAPI :=
  c2_failed_cycle_adopts_cached_quote (Ticker.init "BTC" "BTCUSDT")
    { priceStep := PriceStep.httpErr 500, changeStep := ChangeStep.jsonErr }
    777
    (fun s => if s = "BTC" then
      CacheFile.record
        { price := some (6500012 / 100), price_change := some 950,
          change_24h := some (3 / 2), last_update := some (some 1704067200),
          api := some "Binance" }
     else CacheFile.absent)
    (KlineEnv.err "x") (6500012 / 100) 950 (3 / 2) 1704067200 "Binance" binanceAPI
    trivial (by simp [Ticker.init]) (by decide)

/-- C3: save_to_cache followed immediately by load_from_cache for the same
symbol reconstructs an equal quote (price, price_change, change_24h, the
exact timestamp) and resolves the same descriptor by name lookup. -/
theorem c3_cache_round_trip (st st2 : Ticker) (cache : Cache) (t : DateTime)
    (hlu : st.last_update = some t)
    (hfind : APIs.find? (fun x => x.name == st.current_api.name) = some st.current_api)
    (hsym : st2.symbol = st.symbol) :
    ∃ cache2 : Cache, Ticker.save_to_cache st cache = PyResult.ok cache2 ∧
      Ticker.load_from_cache st2 cache2 = PyResult.ok
        { st2 with price := st.price, price_change := st.price_change,
                   change_24h := st.change_24h, last_update := some t,
                   current_api := st.current_api } := by
  refine ⟨fun s =>
    if s = st.symbol then
      CacheFile.record
        { price := some st.price, price_change := some st.price_change,
          change_24h := some st.change_24h, last_update := some (some t),
          api := some st.current_api.name }
    else cache s, ?_, ?_⟩
  · simp [Ticker.save_to_cache, hlu]
  · simp [Ticker.load_from_cache, hsym, hfind]

theorem c3_witness :
    ∃ cache2 : Cache,
      Ticker.save_to_cache
        { Ticker.init "BTC" "BTCUSDT" with
          price := 42, price_change := -3,
          change_24h := 7 / 10, last_update := some 123 }
        (fun _ => CacheFile.absent) = PyResult.ok cache2 ∧
      Ticker.load_from_cache (Ticker.init "BTC" "BTCUSDT") cache2 = PyResult.ok
        { Ticker.init "BTC" "BTCUSDT" with
          price := 42, price_change := -3,
          change_24h := 7 / 10, last_update := some 123,
          current_api := binanceAPI } :=
  c3_cache_round_trip
    { Ticker.init "BTC" "BTCUSDT" with
      price := 42, price_change := -3,
      change_24h := 7 / 10, last_update := some 123 }
    (Ticker.init "BTC" "BTCUSDT") (fun _ => CacheFile.absent) 123
    rfl (by decide) rfl

/-- C5: when the quote fetch succeeds but the candle step fails (request,
status or parse error, or aggregation over an empty window), the cycle
returns normally with the freshly fetched quote fields, the cache record
written earlier in the same cycle, and the previous candlestick image
left in place (candlestick_image is carried over unchanged from st). -/
theorem c5_candle_failure_preserves_quote_and_cache (st : Ticker)
    (p pct chg : ℚ) (now : DateTime) (cache : Cache) (kl : KlineEnv)
    (hkl : candleFailed kl) :
    ∃ cache2 : Cache,
      Ticker.save_to_cache
        { st with price := p, change_24h := pct, price_change := chg,
                  last_update := some now } cache = PyResult.ok cache2 ∧
      Ticker.update st { priceStep := PriceStep.ok p, changeStep := ChangeStep.ok pct chg }
          now cache kl
        = (PyResult.ok
            { st with price := p, change_24h := pct, price_change := chg,
                      last_update := some now }, cache2) := by
  refine ⟨_, rfl, ?_⟩
  cases kl with
  | err msg => rfl
  | ok bars =>
    simp only [candleFailed] at hkl
    subst hkl
    rfl

theorem c5_witness :
    candleFailed (KlineEnv.err "timeout") ∧
    ∃ cache2 : Cache,
      Ticker.save_to_cache
        { Ticker.init "ETH" "ETHUSDT" with
          price := 9, change_24h := 2,
          price_change := 1, last_update := some 44 }
        (fun _ => CacheFile.absent) = PyResult.ok cache2 ∧
      Ticker.update (Ticker.init "ETH" "ETHUSDT")
          { priceStep := PriceStep.ok 9, changeStep := ChangeStep.ok 2 1 }
          44 (fun _ => CacheFile.absent) (KlineEnv.err "timeout")
        = (PyResult.ok
            { Ticker.init "ETH" "ETHUSDT" with
              price := 9, change_24h := 2,
              price_change := 1, last_update := some 44 }, cache2) :=
  ⟨trivial,
   c5_candle_failure_preserves_quote_and_cache (Ticker.init "ETH" "ETHUSDT")
     9 2 1 44 (fun _ => CacheFile.absent) (KlineEnv.err "timeout") trivial⟩

/-- C6: a missing cache file is not an error and leaves every field of the
ticker unchanged (and a never-updated ticker starts at price 0,
price_change 0, change_24h 0 and no timestamp); a cache file that is not
valid JSON is likewise a logged no-op miss. -/
theorem c6_cache_miss_and_corrupt_are_noops (s bs : String) (st : Ticker)
    (cache : Cache) :
    ((Ticker.init s bs).price = 0 ∧ (Ticker.init s bs).price_change = 0 ∧
     (Ticker.init s bs).change_24h = 0 ∧ (Ticker.init s bs).last_update = none) ∧
    (cache st.symbol = CacheFile.absent →
      Ticker.load_from_cache st cache = PyResult.ok st) ∧
    (cache st.symbol = CacheFile.invalid →
      Ticker.load_from_cache st cache = PyResult.ok st) := by
  refine ⟨⟨rfl, rfl, rfl, rfl⟩, fun h => ?_, fun h => ?_⟩ <;>
    simp [Ticker.load_from_cache, h]

theorem c6_witness :
    (((Ticker.init "SOL" "SOLUSDT").price = 0 ∧
      (Ticker.init "SOL" "SOLUSDT").price_change = 0 ∧
      (Ticker.init "SOL" "SOLUSDT").change_24h = 0 ∧
      (Ticker.init "SOL" "SOLUSDT").last_update = none) ∧
     (((fun _ => CacheFile.absent : Cache) (Ticker.init "SOL" "SOLUSDT").symbol
         = CacheFile.absent) →
       Ticker.load_from_cache (Ticker.init "SOL" "SOLUSDT") (fun _ => CacheFile.absent)
         = PyResult.ok (Ticker.init "SOL" "SOLUSDT")) ∧
     (((fun _ => CacheFile.absent : Cache) (Ticker.init "SOL" "SOLUSDT").symbol
         = CacheFile.invalid) →
       Ticker.load_from_cache (Ticker.init "SOL" "SOLUSDT") (fun _ => CacheFile.absent)
         = PyResult.ok (Ticker.init "SOL" "SOLUSDT"))) ∧
    Ticker.load_from_cache (Ticker.init "XRP" "XRPUSDT") (fun _ => CacheFile.invalid)
      = PyResult.ok (Ticker.init "XRP" "XRPUSDT") :=
  ⟨c6_cache_miss_and_corrupt_are_noops "SOL" "SOLUSDT"
     (Ticker.init "SOL" "SOLUSDT") (fun _ => CacheFile.absent),
   (c6_cache_miss_and_corrupt_are_noops "XRP" "XRPUSDT"
     (Ticker.init "XRP" "XRPUSDT") (fun _ => CacheFile.invalid)).2.2 rfl⟩

/-- C9: when the price request succeeds but the 24h-change request itself
fails and the symbol has no cache file (or a corrupt one), the cycle ends
with the freshly fetched price while price_change, change_24h and
last_update keep their previous values: the failed cycle is not atomic on
the quote fields. -/
theorem c9_partial_cycle_keeps_new_price (st : Ticker) (p : ℚ)
    (cs : ChangeStep) (now : DateTime) (cache : Cache) (kl : KlineEnv)
    (hcs : cs.requestFailed)
    (hc : cache st.symbol = CacheFile.absent ∨ cache st.symbol = CacheFile.invalid) :
    Ticker.update st { priceStep := PriceStep.ok p, changeStep := cs } now cache kl
      = (PyResult.ok { st with price := p }, cache) := by
  cases cs <;> simp only [ChangeStep.requestFailed] at hcs <;>
    rcases hc with h | h <;> simp [Ticker.update, Ticker.load_from_cache, h]

theorem c9_witness :
    ChangeStep.requestFailed (ChangeStep.netErr "reset") ∧
    Ticker.update
        { Ticker.init "BTC" "BTCUSDT" with
          price := 11, price_change := 22,
          change_24h := 33, last_update := some 7 }
        { priceStep := PriceStep.ok 99, changeStep := ChangeStep.netErr "reset" }
        555 (fun _ => CacheFile.absent) (KlineEnv.err "x")
      = (PyResult.ok
          { Ticker.init "BTC" "BTCUSDT" with
            price := 99, price_change := 22,
            change_24h := 33, last_update := some 7 },
         fun _ => CacheFile.absent) :=
  ⟨trivial,
   c9_partial_cycle_keeps_new_price
     { Ticker.init "BTC" "BTCUSDT" with
       price := 11, price_change := 22,
       change_24h := 33, last_update := some 7 }
     99 (ChangeStep.netErr "reset") 555 (fun _ => CacheFile.absent)
     (KlineEnv.err "x") trivial (Or.inl rfl)⟩

theorem getD_of_lt (l : List ℚ) (n : ℕ) (d : ℚ) (h : n < l.length) :
    l.getD n d = l.get ⟨n, h⟩ := by
  simp [List.getD_eq_getElem?_getD, List.getElem?_eq_getElem h]

theorem pyMaxA_mem (xs : List ℚ) : ∀ cur : ℚ, pyMaxA cur xs = cur ∨ pyMaxA cur xs ∈ xs := by
  induction xs with
  | nil => intro cur; exact Or.inl rfl
  | cons x xs ih =>
    intro cur
    simp only [pyMaxA]
    rcases ih (if cur < x then x else cur) with h | h
    · rw [h]
      split
      · exact Or.inr (List.mem_cons_self x xs)
      · exact Or.inl rfl
    · exact Or.inr (List.mem_cons_of_mem x h)

theorem le_pyMaxA (xs : List ℚ) :
    ∀ cur : ℚ, cur ≤ pyMaxA cur xs ∧ ∀ y ∈ xs, y ≤ pyMaxA cur xs := by
  induction xs with
  | nil => intro cur; exact ⟨le_refl cur, by simp⟩
  | cons x xs ih =>
    intro cur
    simp only [pyMaxA]
    have hc : cur ≤ if cur < x then x else cur := by
      split
      · exact le_of_lt (by assumption)
      · exact le_refl cur
    have hx : x ≤ if cur < x then x else cur := by
      split
      · exact le_refl x
      · exact le_of_not_lt (by assumption)
    refine ⟨le_trans hc (ih _).1, fun y hy => ?_⟩
    rcases List.mem_cons.mp hy with h | h
    · subst h
      exact le_trans hx (ih _).1
    · exact (ih _).2 y h

theorem pyMinA_mem (xs : List ℚ) : ∀ cur : ℚ, pyMinA cur xs = cur ∨ pyMinA cur xs ∈ xs := by
  induction xs with
  | nil => intro cur; exact Or.inl rfl
  | cons x xs ih =>
    intro cur
    simp only [pyMinA]
    rcases ih (if x < cur then x else cur) with h | h
    · rw [h]
      split
      · exact Or.inr (List.mem_cons_self x xs)
      · exact Or.inl rfl
    · exact Or.inr (List.mem_cons_of_mem x h)

theorem pyMinA_le (xs : List ℚ) :
    ∀ cur : ℚ, pyMinA cur xs ≤ cur ∧ ∀ y ∈ xs, pyMinA cur xs ≤ y := by
  induction xs with
  | nil => intro cur; exact ⟨le_refl cur, by simp⟩
  | cons x xs ih =>
    intro cur
    simp only [pyMinA]
    have hc : (if x < cur then x else cur) ≤ cur := by
      split
      · exact le_of_lt (by assumption)
      · exact le_refl cur
    have hx : (if x < cur then x else cur) ≤ x := by
      split
      · exact le_refl x
      · exact le_of_not_lt (by assumption)
    refine ⟨le_trans (ih _).1 hc, fun y hy => ?_⟩
    rcases List.mem_cons.mp hy with h | h
    · subst h
      exact le_trans (ih _).1 hx
    · exact (ih _).2 y h

theorem pyIndex_lt_length (v : ℚ) (l : List ℚ) (hv : v ∈ l) :
    pyIndex v l < l.length := by
  induction l with
  | nil => cases hv
  | cons x xs ih =>
    simp only [pyIndex]
    split
    · simp
    · have hvx : v ∈ xs := by
        rcases List.mem_cons.mp hv with h | h
        · exact absurd h.symm (by assumption)
        · exact h
      simpa using Nat.succ_lt_succ (ih hvx)

theorem getD_pyIndex (v : ℚ) (l : List ℚ) (hv : v ∈ l) :
    l.getD (pyIndex v l) 0 = v := by
  induction l with
  | nil => cases hv
  | cons x xs ih =>
    simp only [pyIndex]
    split
    · simpa using (by assumption : x = v)
    · have hvx : v ∈ xs := by
        rcases List.mem_cons.mp hv with h | h
        · exact absurd h.symm (by assumption)
        · exact h
      simpa using ih hvx

theorem pyIndex_first (v : ℚ) (l : List ℚ) :
    ∀ j, j < pyIndex v l → l.getD j 0 ≠ v := by
  induction l with
  | nil => intro j hj; simp [pyIndex] at hj
  | cons x xs ih =>
    intro j hj
    simp only [pyIndex] at hj
    by_cases hx : x = v
    · simp [hx] at hj
    · rw [if_neg hx] at hj
      cases j with
      | zero => simpa using hx
      | succ k => simpa using ih k (Nat.lt_of_succ_lt_succ hj)

/-- C4: on any non-empty window, plot_candlestick_chart annotates the
maximum high and minimum low with the earliest index achieving each
extremum; the computed chart is a function of the bars alone (recomputing
on identical bars from any prior state yields the identical index/value
pairs); and in a 20-bar window with a strict maximum high at index 5 and
a strict minimum low at index 2 the reported indices are 5 and 2. -/
theorem c4_extrema_first_occurrence (data : List Candle) (hne : data ≠ []) :
    ∃ chart : CandleChart,
      (∀ st' : Ticker,
        (Ticker.plot_candlestick_chart st' data).candlestick_image = some chart) ∧
      chart.data = data ∧
      chart.highest_high ∈ data.map (fun c => c.high_price) ∧
      (∀ x ∈ data.map (fun c => c.high_price), x ≤ chart.highest_high) ∧
      chart.idx_highest < data.length ∧
      (data.map (fun c => c.high_price)).getD chart.idx_highest 0 = chart.highest_high ∧
      (∀ j, j < chart.idx_highest →
        (data.map (fun c => c.high_price)).getD j 0 ≠ chart.highest_high) ∧
      chart.lowest_low ∈ data.map (fun c => c.low_price) ∧
      (∀ x ∈ data.map (fun c => c.low_price), chart.lowest_low ≤ x) ∧
      chart.idx_lowest < data.length ∧
      (data.map (fun c => c.low_price)).getD chart.idx_lowest 0 = chart.lowest_low ∧
      (∀ j, j < chart.idx_lowest →
        (data.map (fun c => c.low_price)).getD j 0 ≠ chart.lowest_low) ∧
      (data.length = 20 →
        (∀ j, j < data.length → j ≠ 5 →
          (data.map (fun c => c.high_price)).getD j 0
            < (data.map (fun c => c.high_price)).getD 5 0) →
        chart.idx_highest = 5) ∧
      (data.length = 20 →
        (∀ j, j < data.length → j ≠ 2 →
          (data.map (fun c => c.low_price)).getD 2 0
            < (data.map (fun c => c.low_price)).getD j 0) →
        chart.idx_lowest = 2) := by
  obtain ⟨b, rest, rfl⟩ : ∃ b rest, data = b :: rest := by
    cases data with
    | nil => exact absurd rfl hne
    | cons b rest => exact ⟨b, rest, rfl⟩
  set data := b :: rest with hdata
  set highs : List ℚ := data.map (fun c => c.high_price) with hhighs
  set lows : List ℚ := data.map (fun c => c.low_price) with hlows
  have hhv : pyMax highs = some (pyMaxA b.high_price (rest.map (fun c => c.high_price))) := rfl
  have hlv : pyMin lows = some (pyMinA b.low_price (rest.map (fun c => c.low_price))) := rfl
  set hh : ℚ := pyMaxA b.high_price (rest.map (fun c => c.high_price)) with hhh
  set ll : ℚ := pyMinA b.low_price (rest.map (fun c => c.low_price)) with hll
  have hhmem : hh ∈ highs := by
    rcases pyMaxA_mem (rest.map (fun c => c.high_price)) b.high_price with h | h
    · rw [hhh, h]; simp [hhighs, hdata]
    · rw [hhighs, hdata]; simpa using Or.inr h
  have hhle : ∀ x ∈ highs, x ≤ hh := by
    intro x hx
    rw [hhighs, hdata] at hx
    simp only [List.map_cons, List.mem_cons] at hx
    rcases hx with h | h
    · exact h ▸ (le_pyMaxA (rest.map (fun c => c.high_price)) b.high_price).1
    · exact (le_pyMaxA (rest.map (fun c => c.high_price)) b.high_price).2 x h
  have hlmem : ll ∈ lows := by
    rcases pyMinA_mem (rest.map (fun c => c.low_price)) b.low_price with h | h
    · rw [hll, h]; simp [hlows, hdata]
    · rw [hlows, hdata]; simpa using Or.inr h
  have hlle : ∀ x ∈ lows, ll ≤ x := by
    intro x hx
    rw [hlows, hdata] at hx
    simp only [List.map_cons, List.mem_cons] at hx
    rcases hx with h | h
    · exact h ▸ (pyMinA_le (rest.map (fun c => c.low_price)) b.low_price).1
    · exact (pyMinA_le (rest.map (fun c => c.low_price)) b.low_price).2 x h
  have hlen : highs.length = data.length := by simp [hhighs]
  have hlenl : lows.length = data.length := by simp [hlows]
  refine ⟨{ data := data, highest_high := hh, lowest_low := ll,
            idx_highest := pyIndex hh highs, idx_lowest := pyIndex ll lows },
          ?_, rfl, hhmem, hhle, ?_, getD_pyIndex hh highs hhmem,
          pyIndex_first hh highs, hlmem, hlle, ?_,
          getD_pyIndex ll lows hlmem, pyIndex_first ll lows, ?_, ?_⟩
  · intro st'
    show (Ticker.plot_candlestick_chart st' data).candlestick_image = _
    rw [Ticker.plot_candlestick_chart]
    rw [show data.map (fun c => c.high_price) = highs from rfl,
        show data.map (fun c => c.low_price) = lows from rfl, hhv, hlv]
  · exact hlen ▸ pyIndex_lt_length hh highs hhmem
  · exact hlenl ▸ pyIndex_lt_length ll lows hlmem
  · intro h20 hstrict
    by_contra hne5
    have hidx : pyIndex hh highs < data.length := hlen ▸ pyIndex_lt_length hh highs hhmem
    have h5 : highs.getD 5 0 ∈ highs := by
      have h5lt : 5 < highs.length := by rw [hlen, h20]; omega
      rw [getD_of_lt highs 5 0 h5lt]
      exact List.get_mem highs 5 h5lt
    have hlt := hstrict (pyIndex hh highs) hidx hne5
    rw [getD_pyIndex hh highs hhmem] at hlt
    exact absurd (lt_of_lt_of_le hlt (hhle _ h5)) (lt_irrefl hh)
  · intro h20 hstrict
    by_contra hne2
    have hidx : pyIndex ll lows < data.length := hlenl ▸ pyIndex_lt_length ll lows hlmem
    have h2 : lows.getD 2 0 ∈ lows := by
      have h2lt : 2 < lows.length := by rw [hlenl, h20]; omega
      rw [getD_of_lt lows 2 0 h2lt]
      exact List.get_mem lows 2 h2lt
    have hlt := hstrict (pyIndex ll lows) hidx hne2
    rw [getD_pyIndex ll lows hlmem] at hlt
    exact absurd (lt_of_le_of_lt (hlle _ h2) hlt) (lt_irrefl ll)

theorem c4_witness :
    ∃ chart : CandleChart,
      (∀ st' : Ticker,
        (Ticker.plot_candlestick_chart st'
          [{ timestamp := 0, open_price := 1, high_price := 5, low_price := 2,
             close_price := 3 }]).candlestick_image = some chart) ∧
      chart.data = [{ timestamp := 0, open_price := 1, high_price := 5,
                      low_price := 2, close_price := 3 }] ∧
      chart.highest_high ∈
        ([{ timestamp := 0, open_price := 1, high_price := 5, low_price := 2,
            close_price := 3 }] : List Candle).map (fun c => c.high_price) ∧
      (∀ x ∈ ([{ timestamp := 0, open_price := 1, high_price := 5, low_price := 2,
                 close_price := 3 }] : List Candle).map (fun c => c.high_price),
         x ≤ chart.highest_high) ∧
      chart.idx_highest <
        ([{ timestamp := 0, open_price := 1, high_price := 5, low_price := 2,
            close_price := 3 }] : List Candle).length ∧
      (([{ timestamp := 0, open_price := 1, high_price := 5, low_price := 2,
           close_price := 3 }] : List Candle).map (fun c => c.high_price)).getD
          chart.idx_highest 0 = chart.highest_high ∧
      (∀ j, j < chart.idx_highest →
        (([{ timestamp := 0, open_price := 1, high_price := 5, low_price := 2,
             close_price := 3 }] : List Candle).map (fun c => c.high_price)).getD j 0
          ≠ chart.highest_high) ∧
      chart.lowest_low ∈
        ([{ timestamp := 0, open_price := 1, high_price := 5, low_price := 2,
            close_price := 3 }] : List Candle).map (fun c => c.low_price) ∧
      (∀ x ∈ ([{ timestamp := 0, open_price := 1, high_price := 5, low_price := 2,
                 close_price := 3 }] : List Candle).map (fun c => c.low_price),
         chart.lowest_low ≤ x) ∧
      chart.idx_lowest <
        ([{ timestamp := 0, open_price := 1, high_price := 5, low_price := 2,
            close_price := 3 }] : List Candle).length ∧
      (([{ timestamp := 0, open_price := 1, high_price := 5, low_price := 2,
           close_price := 3 }] : List Candle).map (fun c => c.low_price)).getD
          chart.idx_lowest 0 = chart.lowest_low ∧
      (∀ j, j < chart.idx_lowest →
        (([{ timestamp := 0, open_price := 1, high_price := 5, low_price := 2,
             close_price := 3 }] : List Candle).map (fun c => c.low_price)).getD j 0
          ≠ chart.lowest_low) ∧
      (([{ timestamp := 0, open_price := 1, high_price := 5, low_price := 2,
           close_price := 3 }] : List Candle).length = 20 →
        (∀ j, j < ([{ timestamp := 0, open_price := 1, high_price := 5, low_price := 2,
                      close_price := 3 }] : List Candle).length → j ≠ 5 →
          (([{ timestamp := 0, open_price := 1, high_price := 5, low_price := 2,
               close_price := 3 }] : List Candle).map (fun c => c.high_price)).getD j 0
            < (([{ timestamp := 0, open_price := 1, high_price := 5, low_price := 2,
                   close_price := 3 }] : List Candle).map (fun c => c.high_price)).getD 5 0) →
        chart.idx_highest = 5) ∧
      (([{ timestamp := 0, open_price := 1, high_price := 5, low_price := 2,
           close_price := 3 }] : List Candle).length = 20 →
        (∀ j, j < ([{ timestamp := 0, open_price := 1, high_price := 5, low_price := 2,
                      close_price := 3 }] : List Candle).length → j ≠ 2 →
          (([{ timestamp := 0, open_price := 1, high_price := 5, low_price := 2,
               close_price := 3 }] : List Candle).map (fun c => c.low_price)).getD 2 0
            < (([{ timestamp := 0, open_price := 1, high_price := 5, low_price := 2,
                   close_price := 3 }] : List Candle).map (fun c => c.low_price)).getD j 0) →
        chart.idx_lowest = 2) :=
  c4_extrema_first_occurrence
    [{ timestamp := 0, open_price := 1, high_price := 5, low_price := 2,
       close_price := 3 }] (by decide)

/-- C10: a valid cache record with price, change_24h, a parseable
last_update and a resolvable api name but no price_change key loads
successfully with price_change defaulted to 0. -/
theorem c10_missing_price_change_defaults_to_zero (st : Ticker) (cache : Cache)
    (p c : ℚ) (t : DateTime) (nm : String) (a : API)
    (hc : cache st.symbol = CacheFile.record
      { price := some p, price_change := none, change_24h := some c,
        last_update := some (some t), api := some nm })
    (hfind : APIs.find? (fun x => x.name == nm) = some a) :
    Ticker.load_from_cache st cache = PyResult.ok
      { st with price := p, price_change := 0, change_24h := c,
                last_update := some t, current_api := a } := by
  simp [Ticker.load_from_cache, hc, hfind]

theorem c10_witness :
    Ticker.load_from_cache (Ticker.init "BTC" "BTCUSDT")
        (fun _ => CacheFile.record
          { price := some 5, price_change := none, change_24h := some 6,
            last_update := some (some 9), api := some "Binance" })
      = PyResult.ok
          { Ticker.init "BTC" "BTCUSDT" with
            price := 5, price_change := 0,
            change_24h := 6, last_update := some 9, current_api := binanceAPI } :=
  c10_missing_price_change_defaults_to_zero (Ticker.init "BTC" "BTCUSDT")
    (fun _ => CacheFile.record
      { price := some 5, price_change := none, change_24h := some 6,
        last_update := some (some 9), api := some "Binance" })
    5 6 9 "Binance" binanceAPI rfl (by decide)

theorem env_succ_or_failed (env : FetchEnv) : env.succeeds ∨ env.failed := by
  obtain ⟨ps, cs⟩ := env
  cases ps <;> cases cs <;> simp [FetchEnv.succeeds, FetchEnv.failed]

theorem succeeds_not_failed (env : FetchEnv) (h : env.succeeds) : ¬ env.failed := by
  obtain ⟨ps, cs⟩ := env
  obtain ⟨⟨p, hp⟩, pct, chg, hcs⟩ := h
  simp only at hp hcs
  subst hp
  subst hcs
  simp [FetchEnv.failed]

/-- load_from_cache returns normally on a safe cache file. -/
theorem load_safe (st : Ticker) (cache : Cache) (h : (cache st.symbol).safe) :
    ∃ st', Ticker.load_from_cache st cache = PyResult.ok st' := by
  rcases hfile : cache st.symbol with _ | _ | r
  · exact ⟨st, by simp [Ticker.load_from_cache, hfile]⟩
  · exact ⟨st, by simp [Ticker.load_from_cache, hfile]⟩
  · rw [hfile] at h
    simp only [CacheFile.safe] at h
    obtain ⟨⟨p, hp⟩, ⟨c, hc⟩, ⟨t, ht⟩, nm, a, hnm, hfind⟩ := h
    refine ⟨{ st with
              price := p, price_change := r.price_change.getD 0,
              change_24h := c, last_update := some t, current_api := a }, ?_⟩
    simp [Ticker.load_from_cache, hfile, hp, hc, ht, hnm, hfind]

/-- Overwriting one symbol's cache file with a safe file preserves safety
of every file. -/
theorem safe_update_cache (cache : Cache) (sym : String) (f : CacheFile)
    (hf : f.safe) (s : String) (hs : (cache s).safe) :
    ((fun x => if x = sym then f else cache x) s).safe := by
  by_cases h : s = sym
  · simpa [h] using hf
  · simpa [h] using hs

/-- A fully successful cycle: new quote, candle attempt, cache overwritten
with a record naming the current descriptor. -/
theorem update_succeeds_eq (st : Ticker) (p pct chg : ℚ) (now : DateTime)
    (cache : Cache) (kl : KlineEnv) :
    Ticker.update st { priceStep := PriceStep.ok p, changeStep := ChangeStep.ok pct chg }
        now cache kl
      = (PyResult.ok (Ticker.fetch_candlestick_data
          { st with price := p, change_24h := pct, price_change := chg,
                    last_update := some now } kl),
         fun s => if s = st.symbol then
           CacheFile.record
             { price := some p, price_change := some chg, change_24h := some pct,
               last_update := some (some now), api := some st.current_api.name }
         else cache s) := rfl

/-- C7 counterexample: a concrete pass over two tickers in which the first
ticker's fetch fails and its cache record names a descriptor ("Kraken")
matching no configured API.  The StopIteration escaping load_from_cache
aborts the pass: the second ticker is left completely untouched even
though its own fetch would have succeeded, and the driver never reaches
self.after, so no further cycle is scheduled — refuting the claim that one
symbol's failure never blocks another's cycle and that the next cycle is
always scheduled. -/
theorem c7_counterexample :
    (update_prices
      [(Ticker.init "BTC" "BTCUSDT",
        { env := { priceStep := PriceStep.netErr "down", changeStep := ChangeStep.jsonErr },
          kl := KlineEnv.err "x" }),
       (Ticker.init "ETH" "ETHUSDT",
        { env := { priceStep := PriceStep.ok 10, changeStep := ChangeStep.ok 1 2 },
          kl := KlineEnv.err "x" })]
      99
      (fun s => if s = "BTC" then
        CacheFile.record
          { price := some 1, price_change := some 2, change_24h := some 3,
            last_update := some (some 0), api := some "Kraken" }
       else CacheFile.absent)).scheduledNext = false ∧
    (update_prices
      [(Ticker.init "BTC" "BTCUSDT",
        { env := { priceStep := PriceStep.netErr "down", changeStep := ChangeStep.jsonErr },
          kl := KlineEnv.err "x" }),
       (Ticker.init "ETH" "ETHUSDT",
        { env := { priceStep := PriceStep.ok 10, changeStep := ChangeStep.ok 1 2 },
          kl := KlineEnv.err "x" })]
      99
      (fun s => if s = "BTC" then
        CacheFile.record
          { price := some 1, price_change := some 2, change_24h := some 3,
            last_update := some (some 0), api := some "Kraken" }
       else CacheFile.absent)).raised = some PyExc.stopIteration ∧
    (update_prices
      [(Ticker.init "BTC" "BTCUSDT",
        { env := { priceStep := PriceStep.netErr "down", changeStep := ChangeStep.jsonErr },
          kl := KlineEnv.err "x" }),
       (Ticker.init "ETH" "ETHUSDT",
        { env := { priceStep := PriceStep.ok 10, changeStep := ChangeStep.ok 1 2 },
          kl := KlineEnv.err "x" })]
      99
      (fun s => if s = "BTC" then
        CacheFile.record
          { price := some 1, price_change := some 2, change_24h := some 3,
            last_update := some (some 0), api := some "Kraken" }
       else CacheFile.absent)).tickers
      = [{ Ticker.init "BTC" "BTCUSDT" with
           price := 1, price_change := 2, change_24h := 3, last_update := some 0 },
         Ticker.init "ETH" "ETHUSDT"] :=
  ⟨rfl, rfl, rfl⟩

/-- C7 amended: provided no symbol's cache fallback can itself raise an
unhandled exception — i.e. every ticker either fetches successfully or has
a safe cache file (absent, undecodable, or a fully readable record whose
descriptor name resolves), with descriptors drawn from the configured
list — every symbol in the pass is processed, no exception escapes, and
the next cycle is always scheduled.  Quote-fetch and candle failures alone
never block other symbols or prevent rescheduling. -/
theorem c7_amended_pass_isolation (pairs : List (Ticker × CycleInput))
    (now : DateTime) : ∀ cache : Cache,
    (∀ q ∈ pairs, q.1.current_api = binanceAPI) →
    (∀ q ∈ pairs, q.2.env.succeeds ∨ (cache q.1.symbol).safe) →
    (update_prices pairs now cache).raised = none ∧
    (update_prices pairs now cache).scheduledNext = true ∧
    (update_prices pairs now cache).tickers.length = pairs.length := by
  induction pairs with
  | nil => exact fun cache _ _ => ⟨rfl, rfl, rfl⟩
  | cons hd tl ih =>
    intro cache hapi hsafe
    obtain ⟨t, ci⟩ := hd
    obtain ⟨env, kl⟩ := ci
    have hapiH : t.current_api = binanceAPI := hapi _ (List.mem_cons_self _ _)
    have hsafeH := hsafe _ (List.mem_cons_self _ _)
    rcases env_succ_or_failed env with hsucc | hfail
    · obtain ⟨⟨p, hp⟩, pct, chg, hcs⟩ := hsucc
      obtain ⟨ps, cs⟩ := env
      simp only at hp hcs
      subst hp
      subst hcs
      rw [show (update_prices
            ((t, { env := { priceStep := PriceStep.ok p, changeStep := ChangeStep.ok pct chg },
                   kl := kl }) :: tl) now cache)
          = { tickers := Ticker.fetch_candlestick_data
                { t with price := p, change_24h := pct, price_change := chg,
                         last_update := some now } kl ::
                (update_prices tl now (fun s => if s = t.symbol then
                  CacheFile.record
                    { price := some p, price_change := some chg, change_24h := some pct,
                      last_update := some (some now), api := some t.current_api.name }
                 else cache s)).tickers
              cache := (update_prices tl now (fun s => if s = t.symbol then
                  CacheFile.record
                    { price := some p, price_change := some chg, change_24h := some pct,
                      last_update := some (some now), api := some t.current_api.name }
                 else cache s)).cache
              raised := (update_prices tl now (fun s => if s = t.symbol then
                  CacheFile.record
                    { price := some p, price_change := some chg, change_24h := some pct,
                      last_update := some (some now), api := some t.current_api.name }
                 else cache s)).raised
              scheduledNext := (update_prices tl now (fun s => if s = t.symbol then
                  CacheFile.record
                    { price := some p, price_change := some chg, change_24h := some pct,
                      last_update := some (some now), api := some t.current_api.name }
                 else cache s)).scheduledNext } from rfl]
      have hr := ih (fun s => if s = t.symbol then
          CacheFile.record
            { price := some p, price_change := some chg, change_24h := some pct,
              last_update := some (some now), api := some t.current_api.name }
         else cache s)
        (fun q hq => hapi q (List.mem_cons_of_mem _ hq))
        (fun q hq => by
          rcases hsafe q (List.mem_cons_of_mem _ hq) with h | h
          · exact Or.inl h
          · refine Or.inr (safe_update_cache cache t.symbol _ ?_ q.1.symbol h)
            simp only [CacheFile.safe]
            refine ⟨⟨p, rfl⟩, ⟨pct, rfl⟩, ⟨now, rfl⟩,
              t.current_api.name, binanceAPI, rfl, ?_⟩
            rw [hapiH]
            decide)
      exact ⟨hr.1, hr.2.1, by simp [hr.2.2]⟩
    · have hsafeF : (cache t.symbol).safe := by
        rcases hsafeH with h | h
        · exact absurd hfail (succeeds_not_failed env h)
        · exact h
      obtain ⟨st1, hupd, hsym, _, _⟩ :=
        update_failed_falls_back t env now cache kl hfail
      obtain ⟨st', hload⟩ := load_safe st1 cache (by rw [hsym]; exact hsafeF)
      have hupd2 : Ticker.update t env now cache kl = (PyResult.ok st', cache) := by
        rw [hupd, hload]
      have hred : update_prices ((t, { env := env, kl := kl }) :: tl) now cache
          = { tickers := st' :: (update_prices tl now cache).tickers
              cache := (update_prices tl now cache).cache
              raised := (update_prices tl now cache).raised
              scheduledNext := (update_prices tl now cache).scheduledNext } := by
        simp only [update_prices, hupd2]
      rw [hred]
      have hr := ih cache
        (fun q hq => hapi q (List.mem_cons_of_mem _ hq))
        (fun q hq => hsafe q (List.mem_cons_of_mem _ hq))
      exact ⟨hr.1, hr.2.1, by simp [hr.2.2]⟩

theorem c7_witness :
    (update_prices
      [(Ticker.init "BTC" "BTCUSDT",
        { env := { priceStep := PriceStep.netErr "down", changeStep := ChangeStep.jsonErr },
          kl := KlineEnv.err "x" })]
      3 (fun _ => CacheFile.absent)).raised = none ∧
    (update_prices
      [(Ticker.init "BTC" "BTCUSDT",
        { env := { priceStep := PriceStep.netErr "down", changeStep := ChangeStep.jsonErr },
          kl := KlineEnv.err "x" })]
      3 (fun _ => CacheFile.absent)).scheduledNext = true ∧
    (update_prices
      [(Ticker.init "BTC" "BTCUSDT",
        { env := { priceStep := PriceStep.netErr "down", changeStep := ChangeStep.jsonErr },
          kl := KlineEnv.err "x" })]
      3 (fun _ => CacheFile.absent)).tickers.length
      = [(Ticker.init "BTC" "BTCUSDT",
          ({ env := { priceStep := PriceStep.netErr "down", changeStep := ChangeStep.jsonErr },
             kl := KlineEnv.err "x" } : CycleInput))].length :=
  c7_amended_pass_isolation
    [(Ticker.init "BTC" "BTCUSDT",
      { env := { priceStep := PriceStep.netErr "down", changeStep := ChangeStep.jsonErr },
        kl := KlineEnv.err "x" })]
    3 (fun _ => CacheFile.absent)
    (fun q hq => by
      rcases List.mem_singleton.mp hq with rfl
      rfl)
    (fun q hq => by
      rcases List.mem_singleton.mp hq with rfl
      exact Or.inr trivial)

theorem filter_length_mono (l : List ℚ) (p q : ℚ → Bool)
    (h : ∀ a ∈ l, p a = true → q a = true) :
    (l.filter p).length ≤ (l.filter q).length := by
  induction l with
  | nil => simp
  | cons x xs ih =>
    have ih2 := ih (fun a ha => h a (List.mem_cons_of_mem x ha))
    rw [List.filter_cons, List.filter_cons]
    by_cases hp : p x = true
    · rw [if_pos hp, if_pos (h x (List.mem_cons_self x xs) hp)]
      exact Nat.succ_le_succ ih2
    · rw [if_neg hp]
      by_cases hq : q x = true
      · rw [if_pos hq]
        exact le_trans ih2 (Nat.le_succ _)
      · rw [if_neg hq]
        exact ih2

theorem filter_length_lt (l : List ℚ) (p q : ℚ → Bool) (x : ℚ)
    (hx : x ∈ l) (hqx : q x = true)
    (h : ∀ a ∈ l, p a = true → q a = true ∧ a ≠ x) :
    (l.filter p).length < (l.filter q).length := by
  induction l with
  | nil => cases hx
  | cons y ys ih =>
    rw [List.filter_cons, List.filter_cons]
    rcases List.mem_cons.mp hx with rfl | hx2
    · have hpx : ¬ p x = true := fun hp => (h x (List.mem_cons_self x ys) hp).2 rfl
      have hmono : (ys.filter p).length ≤ (ys.filter q).length :=
        filter_length_mono ys p q (fun a ha hp => (h a (List.mem_cons_of_mem x ha) hp).1)
      rw [if_neg hpx, if_pos hqx]
      exact Nat.lt_succ_of_le hmono
    · have ih2 := ih hx2 (fun a ha hp => h a (List.mem_cons_of_mem y ha) hp)
      by_cases hp : p y = true
      · rw [if_pos hp, if_pos (h y (List.mem_cons_self y ys) hp).1]
        exact Nat.succ_lt_succ ih2
      · rw [if_neg hp]
        by_cases hq : q y = true
        · rw [if_pos hq]
          exact lt_trans ih2 (Nat.lt_succ_self _)
        · rw [if_neg hq]
          exact ih2

theorem pairwise_getLast_min (l : List ℚ) :
    l.Pairwise (fun a b => b ≤ a) → ∀ m : ℚ, l.getLast? = some m →
      ∀ c ∈ l, m ≤ c := by
  induction l with
  | nil =>
    intro _ m hm
    simp at hm
  | cons a tl ih =>
    intro hpw m hm c hc
    cases tl with
    | nil =>
      have ham : a = m := by simpa using hm
      rcases List.mem_singleton.mp hc with rfl
      exact le_of_eq ham.symm
    | cons b tl2 =>
      rw [List.getLast?_cons_cons] at hm
      rcases List.mem_cons.mp hc with rfl | hc2
      · exact (List.pairwise_cons.mp hpw).1 m (List.mem_of_mem_getLast? hm)
      · exact ih (List.pairwise_cons.mp hpw).2 m hm c hc2

theorem pairwise_le_headD (l : List ℚ) (d : ℚ)
    (h : l.Pairwise (fun a b => b ≤ a)) : ∀ c ∈ l, c ≤ l.headD d := by
  cases l with
  | nil => intro c hc; cases hc
  | cons a tl =>
    intro c hc
    rcases List.mem_cons.mp hc with rfl | hc2
    · exact le_refl _
    · exact (List.pairwise_cons.mp h).1 c hc2

theorem windowCount_cons (x : ℚ) (led : List ℚ) (s : ℚ) :
    windowCount (x :: led) s
      = if (decide (s < x) && decide (x ≤ s + RATE_LIMIT)) = true then
          windowCount led s + 1
        else windowCount led s := by
  simp only [windowCount, List.filter_cons]
  split <;> rfl

/-- One acquire step preserves the ledger invariant, and every entry of the
new ledger is bounded by the completion time. -/
theorem acquire_preserves (led : List ℚ) (t : ℚ)
    (hpw : led.Pairwise (fun a b => b ≤ a))
    (hwb : ∀ s : ℚ, windowCount led s ≤ CALLS)
    (hle : ∀ c ∈ led, c ≤ t) :
    (acquire led t).2.Pairwise (fun a b => b ≤ a) ∧
    (∀ s : ℚ, windowCount (acquire led t).2 s ≤ CALLS) ∧
    ∀ c ∈ (acquire led t).2, c ≤ (acquire led t).1 := by
  by_cases hlt : (activeCalls led t).length < CALLS
  · rw [show acquire led t = (t, t :: led) from by simp [acquire, hlt]]
    refine ⟨List.pairwise_cons.mpr ⟨hle, hpw⟩, ?_, ?_⟩
    · intro s
      by_cases hp : (decide (s < t) && decide (t ≤ s + RATE_LIMIT)) = true
      · rw [windowCount_cons, if_pos hp]
        simp only [Bool.and_eq_true, decide_eq_true_eq] at hp
        have hmono : windowCount led s ≤ (activeCalls led t).length := by
          rw [windowCount, activeCalls]
          apply filter_length_mono
          intro a ha hw
          simp only [Bool.and_eq_true, decide_eq_true_eq] at hw
          simp only [decide_eq_true_eq]
          linarith [hw.1, hp.2]
        omega
      · rw [windowCount_cons, if_neg hp]
        exact hwb s
    · intro c hc
      rcases List.mem_cons.mp hc with rfl | hc2
      · exact le_refl _
      · exact hle c hc2
  · cases hlast : (activeCalls led t).getLast? with
    | none =>
      exfalso
      have hnil : activeCalls led t = [] := List.getLast?_eq_none_iff.mp hlast
      rw [hnil] at hlt
      simp [CALLS] at hlt
    | some old =>
      have hacq : acquire led t = (old + RATE_LIMIT, (old + RATE_LIMIT) :: led) := by
        simp [acquire, hlt, hlast]
      have hmem : old ∈ activeCalls led t := List.mem_of_mem_getLast? hlast
      have hmemled : old ∈ led := List.mem_of_mem_filter hmem
      have hold : t < old + RATE_LIMIT := by
        have := List.of_mem_filter hmem
        simpa using this
      have hle2 : ∀ c ∈ led, c ≤ old + RATE_LIMIT :=
        fun c hc => le_of_lt (lt_of_le_of_lt (hle c hc) hold)
      rw [hacq]
      refine ⟨List.pairwise_cons.mpr ⟨hle2, hpw⟩, ?_, ?_⟩
      · intro s
        by_cases hp : (decide (s < old + RATE_LIMIT) &&
            decide (old + RATE_LIMIT ≤ s + RATE_LIMIT)) = true
        · rw [windowCount_cons, if_pos hp]
          simp only [Bool.and_eq_true, decide_eq_true_eq] at hp
          have hos : old ≤ s := by linarith [hp.2]
          have hcap : (activeCalls led t).length ≤ windowCount led (t - RATE_LIMIT) := by
            rw [activeCalls, windowCount]
            apply filter_length_mono
            intro a ha hw
            simp only [decide_eq_true_eq] at hw
            simp only [Bool.and_eq_true, decide_eq_true_eq]
            have := hle a ha
            refine ⟨by linarith, by linarith⟩
          have hstrict : windowCount led s < (activeCalls led t).length := by
            rw [windowCount, activeCalls]
            apply filter_length_lt _ _ _ old hmemled
            · simp only [decide_eq_true_eq]
              exact hold
            · intro a ha hw
              simp only [Bool.and_eq_true, decide_eq_true_eq] at hw
              have hgt : old < a := lt_of_le_of_lt hos hw.1
              refine ⟨?_, ne_of_gt hgt⟩
              simp only [decide_eq_true_eq]
              linarith
          have h1 := hwb (t - RATE_LIMIT)
          omega
        · rw [windowCount_cons, if_neg hp]
          exact hwb s
      · intro c hc
        rcases List.mem_cons.mp hc with rfl | hc2
        · exact le_refl _
        · exact hle2 c hc2

/-- Any sequential run through the limiter preserves the ledger invariant. -/
theorem runLimiter_preserves (rs : List ℚ) :
    ∀ led : List ℚ, led.Pairwise (fun a b => b ≤ a) →
      (∀ s : ℚ, windowCount led s ≤ CALLS) →
      (runLimiter rs led).Pairwise (fun a b => b ≤ a) ∧
      ∀ s : ℚ, windowCount (runLimiter rs led) s ≤ CALLS := by
  induction rs with
  | nil => exact fun led hpw hwb => ⟨hpw, hwb⟩
  | cons r rs ih =>
    intro led hpw hwb
    rw [runLimiter]
    have hle : ∀ c ∈ led, c ≤ max r (led.headD r) :=
      fun c hc => le_trans (pairwise_le_headD led r hpw c hc) (le_max_right _ _)
    obtain ⟨h1, h2, _⟩ := acquire_preserves led (max r (led.headD r)) hpw hwb hle
    exact ih _ h1 h2

/-- C8 (the limiter is modelled from the spec, since the ratelimit library
wrapped around update at lines 61-62 is not part of the repository
sources): first, no execution of any sequence of calls issued through the
limiter from a fresh ledger ever completes more than CALLS calls inside
any sliding window of RATE_LIMIT seconds; second, whenever already CALLS
calls are inside the rolling window at request time t, acquire makes the
extra call block and complete only at old + RATE_LIMIT, the instant the
oldest windowed call exits the window — strictly after t — rather than
fail. -/
theorem c8_rate_limiter_window (reqs : List ℚ) :
    (∀ s : ℚ, windowCount (runLimiter reqs []) s ≤ CALLS) ∧
    ∀ (led : List ℚ) (t old : ℚ),
      (activeCalls led t).getLast? = some old →
      ¬ (activeCalls led t).length < CALLS →
      acquire led t = (old + RATE_LIMIT, (old + RATE_LIMIT) :: led) ∧
      t < old + RATE_LIMIT := by
  constructor
  · exact (runLimiter_preserves reqs [] List.Pairwise.nil
      (fun s => by simp [windowCount])).2
  · intro led t old hlast hlen
    refine ⟨by simp [acquire, hlen, hlast], ?_⟩
    have hmem := List.mem_of_mem_getLast? hlast
    have := List.of_mem_filter hmem
    simpa using this

theorem c8_witness :
    acquire (List.replicate CALLS (0:ℚ)) 0
      = (0 + RATE_LIMIT, (0 + RATE_LIMIT) :: List.replicate CALLS (0:ℚ)) ∧
    (0:ℚ) < 0 + RATE_LIMIT :=
  (c8_rate_limiter_window []).2 (List.replicate CALLS (0:ℚ)) 0 0
    (by rw [activeCalls, List.filter_replicate]
        rw [if_pos (by simp only [decide_eq_true_eq]; norm_num [RATE_LIMIT])]
        rw [List.getLast?_replicate]
        rw [if_neg (by norm_num [CALLS])])
    (by rw [activeCalls, List.filter_replicate]
        rw [if_pos (by simp only [decide_eq_true_eq]; norm_num [RATE_LIMIT])]
        rw [List.length_replicate]
        exact lt_irrefl CALLS)

end CryptoTicker
